import Mathlib

/-!
# qt-localshare: main window glue and transfer list helpers

Shallow embedding of `src/window.h`, `src/gui/window.h` and `src/transfer_list.h`.

* Widgets are records of the attributes the slots read or write; every slot is a
  function from the window state (and the slot arguments) to the new window state.
* Values the slots obtain from dialogs, from the selection model or from a signal
  are arguments of the slot functions.
* Classes whose headers are not part of the three files (the item models, the
  discovery classes) are either modelled from the specification, and say so, or are
  taken as parameters (`PeerListOps`, `Gui.PeerListOps`).
-/

namespace Localshare

/-! ## Qt value types -/

/-- The enum `QSystemTrayIcon::ActivationReason`. -/
inductive ActivationReason where
  | Unknown
  | Context
  | DoubleClick
  | Trigger
  | MiddleClick
  deriving DecidableEq, Repr

/-- A `QCloseEvent`: whether the window system sent it (`spontaneous ()`) and its
accept flag, set by `accept ()` and cleared by `ignore ()`. -/
structure QCloseEvent where
  spontaneous : Bool
  accepted : Bool
  deriving DecidableEq, Repr

/-- The method `QEvent::accept`. -/
def QCloseEvent.accept (e : QCloseEvent) : QCloseEvent := { e with accepted := true }

/-- The method `QEvent::ignore`. -/
def QCloseEvent.ignore (e : QCloseEvent) : QCloseEvent := { e with accepted := false }

/-- A `QModelIndex`, reduced to its row and column. -/
structure QModelIndex where
  row : Int
  column : Int
  deriving DecidableEq, Repr

/-- A `QAbstractSocket *`, identified by the address of the socket object. -/
abbrev QAbstractSocket := Nat

/-! ## Peers and list models -/

/-- The aggregate `Peer`, with the four members the constructor of `Window` initialises in
`Peer{"NSA", "nsa.gov", QHostAddress ("192.44.29.1"), 42}`: user name, host name, address
and port. -/
structure Peer where
  username : String
  hostname : String
  address : String
  port : Nat
  deriving DecidableEq, Repr

/-- Modelled from the spec: the stable discovery-source key of a peer (the declaration of
`Peer` is in `localshare.h`, which is not among the sources). The specification names the
key as "hostname+service instance" and says that the user name is not a stable key; the
host name is the member of `Peer` that plays this part. -/
def Peer.identity_key (p : Peer) : String := p.hostname

/-- The item list of a `StructItemModel` (or of the older `PeerListModel` and
`Transfer::ListModel`), in presentation order. -/
structure StructItemModel (α : Type) where
  item_list : List α
  deriving DecidableEq, Repr

/-- Modelled from the spec: `StructItemModel::append` (`struct_item_model.h`,
`peer_list.h` and `transfer_model.h` are not among the sources). The specification has the
registries add one entry per registration and enumerate "in stable order for
presentation": the new item becomes the last entry and the entries present stay as they
are. -/
def StructItemModel.append {α : Type} (m : StructItemModel α) (item : α) : StructItemModel α :=
  { item_list := m.item_list ++ [item] }

/-- The entries of a transfer list model: `Transfer::Upload (peer, filepath, model)` and
`Transfer::Download (connection)` of `src/window.h`, and
`Transfer::UploadOld (peer, filepath, username, model)` and
`Transfer::DownloadOld (connection)` of `src/gui/window.h`. -/
inductive TransferItem where
  | Upload (peer : Peer) (filepath : String)
  | Download (connection : QAbstractSocket)
  | UploadOld (peer : Peer) (filepath : String) (username : String)
  | DownloadOld (connection : QAbstractSocket)
  deriving DecidableEq, Repr

/-- Whether a transfer entry is an upload. -/
def TransferItem.is_upload : TransferItem → Bool
  | .Upload _ _ => true
  | .UploadOld _ _ _ => true
  | _ => false

/-- Whether a transfer entry is a download. -/
def TransferItem.is_download : TransferItem → Bool
  | .Download _ => true
  | .DownloadOld _ => true
  | _ => false

/-- A `PeerItem (peer, peer_list_model)` of `src/window.h`. -/
structure PeerItem where
  peer : Peer
  deriving DecidableEq, Repr

/-- The method `PeerItem::get_peer`. -/
def PeerItem.get_peer (item : PeerItem) : Peer := item.peer

/-- A `Discovery::Browser (username, service_name, parent)`. -/
structure Browser where
  username : String
  service_name : String
  deriving DecidableEq, Repr

/-- The constants of namespace `Const` (`localshare.h`) that `src/window.h` reads. -/
structure Const where
  app_name : String
  service_name : String
  deriving DecidableEq, Repr

/-- The methods of `PeerListModel` (`peer_list.h`) that `src/window.h` calls besides
`append`; their bodies are not among the sources, so they are parameters. -/
structure PeerListOps where
  has_item : StructItemModel PeerItem → QModelIndex → Bool
  get_item_t : StructItemModel PeerItem → QModelIndex → PeerItem
  delete_peer : StructItemModel PeerItem → String → StructItemModel PeerItem

/-! ## `src/window.h` -/

/-- The state of the `Window` of `src/window.h`: the visibility of the window and of the
tray icon, title and status bar message, the two list models, and the
`Discovery::Browser` objects created so far. -/
structure Window where
  visible : Bool
  tray_visible : Bool
  window_title : String
  status_message : String
  peer_list_model : StructItemModel PeerItem
  transfer_list_model : StructItemModel TransferItem
  browsers : List Browser
  deriving DecidableEq, Repr

namespace Window

/-- The method `QWidget::setVisible`. -/
def setVisible (w : Window) (v : Bool) : Window := { w with visible := v }

/-- The method `QWidget::isVisible`. -/
def isVisible (w : Window) : Bool := w.visible

/-- The method `QWidget::hide`, which is `setVisible (false)`. -/
def hide (w : Window) : Window := w.setVisible false

/-- The method `QWidget::show`, which is `setVisible (true)`. -/
def «show» (w : Window) : Window := w.setVisible true

/-- The method `Window::closeEvent`. -/
def closeEvent (w : Window) (event : QCloseEvent) : Window × QCloseEvent :=
  if event.spontaneous && w.isVisible && w.tray_visible then
    (w.hide, event.ignore)
  else
    (w, event.accept)

/-- The slot `Window::service_registered`. -/
def service_registered (c : Const) (w : Window) (username : String) : Window :=
  { w with
    window_title := c.app_name ++ " - " ++ username
    status_message := "Service registered as " ++ username
    browsers := w.browsers ++ [{ username := username, service_name := c.service_name }] }

/-- The slot `Window::tray_activated`. -/
def tray_activated (w : Window) (reason : ActivationReason) : Window :=
  match reason with
  | .DoubleClick => w.setVisible (!w.isVisible)
  | _ => w

/-- The slot `Window::request_upload`. -/
def request_upload (w : Window) (peer : Peer) (filepath : String) : Window :=
  let upload := TransferItem.Upload peer filepath
  { w with transfer_list_model := w.transfer_list_model.append upload }

/-- The slot `Window::incoming_connection`. -/
def incoming_connection (w : Window) (connection : QAbstractSocket) : Window :=
  let download := TransferItem.Download connection
  { w with transfer_list_model := w.transfer_list_model.append download }

/-- The slot `Window::action_send_clicked`; `filepath` is what
`QFileDialog::getOpenFileName` returned and `selection` is `selectedIndexes ()`. -/
def action_send_clicked (ops : PeerListOps) (w : Window) (filepath : String)
    (selection : List QModelIndex) : Window :=
  if filepath.isEmpty then w
  else
    selection.foldl
      (fun w index =>
        if index.column == 0 && ops.has_item w.peer_list_model index then
          let item := ops.get_item_t w.peer_list_model index
          w.request_upload item.get_peer filepath
        else w)
      w

/-- The slot `Window::peer_added`. -/
def peer_added (w : Window) (peer : Peer) : Window :=
  let item : PeerItem := { peer := peer }
  { w with peer_list_model := w.peer_list_model.append item }

/-- The slot `Window::peer_removed`. -/
def peer_removed (ops : PeerListOps) (w : Window) (username : String) : Window :=
  { w with peer_list_model := ops.delete_peer w.peer_list_model username }

/-- The constructor `Window::Window`: `setting_show_tray` is `Settings::UseTray ().get ()`.
No browser exists yet; the window is shown and the two test peers are added. -/
def new (c : Const) (setting_show_tray : Bool) : Window :=
  let w : Window :=
    { visible := false
      tray_visible := setting_show_tray
      window_title := c.app_name
      status_message := "Starting up..."
      peer_list_model := { item_list := [] }
      transfer_list_model := { item_list := [] }
      browsers := [] }
  let w := w.«show»
  let w := w.peer_added
    { username := "NSA", hostname := "nsa.gov", address := "192.44.29.1", port := 42 }
  w.peer_added
    { username := "ANSSI", hostname := "anssi.fr", address := "8.8.8.8", port := 1000 }

/-- What can reach the window after construction: the close event and one event per
`connect` of the constructor, of `service_registered` (the `added` and `removed` signals of
the browser created there, named by its position among the browsers) and of `peer_added`
(the `request_upload` signal of a peer item). -/
inductive Event where
  | close (spontaneous : Bool)
  | registered (username : String)
  | tray (reason : ActivationReason)
  | use_tray (checked : Bool)
  | show_window
  | send (filepath : String) (selection : List QModelIndex)
  | browser_added (browser : Nat) (peer : Peer)
  | browser_removed (browser : Nat) (username : String)
  | item_request_upload (peer : Peer) (filepath : String)
  | new_connection (connection : QAbstractSocket)
  deriving DecidableEq, Repr

/-- Delivery of one event to the slot connected to it. A signal of a browser that was never
created has no sender, so it changes nothing. What Qt itself does with a close event once
`closeEvent` has accepted it is not part of the window's slots and is left out. -/
def step (c : Const) (ops : PeerListOps) (w : Window) : Event → Window
  | .close spontaneous => (w.closeEvent { spontaneous := spontaneous, accepted := true }).1
  | .registered username => w.service_registered c username
  | .tray reason => w.tray_activated reason
  | .use_tray checked => { w with tray_visible := checked }
  | .show_window => w.«show»
  | .send filepath selection => w.action_send_clicked ops filepath selection
  | .browser_added browser peer => if browser < w.browsers.length then w.peer_added peer else w
  | .browser_removed browser username =>
    if browser < w.browsers.length then w.peer_removed ops username else w
  | .item_request_upload peer filepath => w.request_upload peer filepath
  | .new_connection connection => w.incoming_connection connection

/-- Delivery of a sequence of events, in order. -/
def run (c : Const) (ops : PeerListOps) (w : Window) (events : List Event) : Window :=
  events.foldl (step c ops) w

/-- Browsing is active when a `Discovery::Browser` exists. -/
def browsing_active (w : Window) : Bool := !w.browsers.isEmpty

end Window

/-! ## `src/gui/window.h` -/

namespace Gui

/-- A `Discovery::DnsPeer *`, identified by the address of the peer object. -/
abbrev DnsPeer := Nat

/-- The entries of a `PeerList::Model`: `PeerList::ManualItem (model)` and
`PeerList::DiscoveryItem (peer)`. -/
inductive Item where
  | ManualItem
  | DiscoveryItem (peer : DnsPeer)
  deriving DecidableEq, Repr

/-- The methods of `PeerList::Model` and `PeerList::Item` (`gui/peer_list.h`,
`struct_item_model.h`) that `src/gui/window.h` calls besides `append`; their bodies are
not among the sources, so they are parameters. -/
structure PeerListOps where
  has_item : StructItemModel Item → QModelIndex → Bool
  get_item_t : StructItemModel Item → QModelIndex → Item
  get_peer : Item → Peer

/-- The state of the `Window` of `src/gui/window.h`: the visibility of the window and of
the tray icon, the title, the user name of the local peer
(`local_peer->get_username ()`) and the two list models. -/
structure Window where
  visible : Bool
  tray_visible : Bool
  window_title : String
  local_username : String
  peer_list_model : StructItemModel Item
  transfer_list_model : StructItemModel TransferItem
  deriving DecidableEq, Repr

namespace Window

/-- The method `QWidget::setVisible`. -/
def setVisible (w : Window) (v : Bool) : Window := { w with visible := v }

/-- The method `QWidget::isVisible`. -/
def isVisible (w : Window) : Bool := w.visible

/-- The method `QWidget::hide`, which is `setVisible (false)`. -/
def hide (w : Window) : Window := w.setVisible false

/-- The method `Window::closeEvent`. -/
def closeEvent (w : Window) (event : QCloseEvent) : Window × QCloseEvent :=
  if event.spontaneous && w.isVisible && w.tray_visible then
    (w.hide, event.ignore)
  else
    (w, event.accept)

/-- The slot `Window::set_window_title`. -/
def set_window_title (w : Window) : Window :=
  let username := w.local_username
  if username.isEmpty then { w with window_title := "Unregistered" }
  else { w with window_title := username }

/-- The slot `Window::tray_activated`. -/
def tray_activated (w : Window) (reason : ActivationReason) : Window :=
  if reason = ActivationReason.DoubleClick then w.setVisible (!w.isVisible) else w

/-- The slot `Window::request_upload`. -/
def request_upload (w : Window) (peer : Peer) (filepath : String) : Window :=
  let upload := TransferItem.UploadOld peer filepath w.local_username
  { w with transfer_list_model := w.transfer_list_model.append upload }

/-- The slot `Window::incoming_connection`. -/
def incoming_connection (w : Window) (connection : QAbstractSocket) : Window :=
  let download := TransferItem.DownloadOld connection
  { w with transfer_list_model := w.transfer_list_model.append download }

/-- The slot `Window::action_send_clicked`; `filepath` is what
`QFileDialog::getOpenFileName` returned and `selection` is `selectedIndexes ()`. -/
def action_send_clicked (ops : PeerListOps) (w : Window) (filepath : String)
    (selection : List QModelIndex) : Window :=
  if filepath.isEmpty then w
  else
    selection.foldl
      (fun w index =>
        if index.column == 0 && ops.has_item w.peer_list_model index then
          w.request_upload (ops.get_peer (ops.get_item_t w.peer_list_model index)) filepath
        else w)
      w

/-- The slot `Window::new_manual_peer`. -/
def new_manual_peer (w : Window) : Window :=
  let item := Item.ManualItem
  { w with peer_list_model := w.peer_list_model.append item }

end Window

end Gui

/-! ## `src/transfer_list.h` -/

namespace Transfer

/-- The function `QObject::tr` with no translation installed: the source text. -/
def tr (source : String) : String := source

/-- The enum `Qt::Orientation`. -/
inductive Orientation where
  | Horizontal
  | Vertical
  deriving DecidableEq, Repr

/-- The role `Qt::DisplayRole`. -/
def DisplayRole : Int := 0

namespace Item

/-- The enumerator `Item::FilenameField`. -/
def FilenameField : Int := 0

/-- The enumerator `Item::PeerField`. -/
def PeerField : Int := 1

/-- The enumerator `Item::SizeField`. -/
def SizeField : Int := 2

/-- The enumerator `Item::ProgressField`. -/
def ProgressField : Int := 3

/-- The enumerator `Item::StatusField`. -/
def StatusField : Int := 4

/-- The enumerator `Item::NbFields`. -/
def NbFields : Int := 5

end Item

/-- The method `Transfer::Model::headerData`; the result is `none` for the invalid
`QVariant` that `return {}` builds and `some s` for a `QVariant` holding the string `s`. -/
def headerData (section_ : Int) (orientation : Orientation) (role : Int) : Option String :=
  if !(role == DisplayRole && orientation == Orientation.Horizontal) then none
  else if section_ = Item.FilenameField then some (tr "File")
  else if section_ = Item.PeerField then some (tr "Peer")
  else if section_ = Item.SizeField then some (tr "File size")
  else if section_ = Item.ProgressField then some (tr "Transferred")
  else if section_ = Item.StatusField then some (tr "Status")
  else none

end Transfer

/-! ## Sample values -/

/-- The constants of a sample build. -/
def sample_const : Const := { app_name := "Localshare", service_name := "_localshare._tcp." }

/-- A peer announced as "alice" from the host "laptop.local". -/
def alice_laptop : Peer :=
  { username := "alice", hostname := "laptop.local", address := "10.0.0.5", port := 51342 }

/-- A second peer announced as "alice", from the host "desktop.local". -/
def alice_desktop : Peer :=
  { username := "alice", hostname := "desktop.local", address := "10.0.0.6", port := 40000 }

/-- A peer list model that finds the item of an index by its row and deletes every entry
with the given user name. -/
def sample_ops : PeerListOps :=
  { has_item := fun m index => 0 ≤ index.row && index.row.toNat < m.item_list.length
    get_item_t := fun m index =>
      m.item_list.getD index.row.toNat
        { peer := { username := "", hostname := "", address := "", port := 0 } }
    delete_peer := fun m username =>
      { item_list := m.item_list.filter (fun item => item.peer.username != username) } }

/-- A freshly constructed window of `src/window.h`, with the tray icon in use. -/
def sample_window : Window := Window.new sample_const true

/-- A window of `src/window.h` whose peer list holds the two peers named "alice". -/
def two_alices_window : Window :=
  { sample_window with
    peer_list_model := { item_list := [{ peer := alice_laptop }, { peer := alice_desktop }] } }

/-- Whether an event is the `registered` signal of the discovery service. -/
def Window.Event.is_registered : Window.Event → Bool
  | .registered _ => true
  | _ => false

end Localshare

namespace Localshare

/-! ## Window visibility: close events and the tray icon -/

/-- C1. `Window::closeEvent` (in both windows) hides the window and ignores the event if
and only if the event is spontaneous, the window is visible and the tray icon is visible;
in every other case it accepts the event and leaves the window, its visibility included,
as it was. In particular a close request on a window that is not visible is accepted. -/
theorem closeEvent_hides_iff_spontaneous_visible_tray :
    (∀ (w : Window) (event : QCloseEvent),
      (((w.closeEvent event).1 = w.hide ∧ (w.closeEvent event).1.visible = false ∧
          (w.closeEvent event).2.accepted = false) ↔
        (event.spontaneous = true ∧ w.visible = true ∧ w.tray_visible = true)) ∧
      (¬ (event.spontaneous = true ∧ w.visible = true ∧ w.tray_visible = true) →
        (w.closeEvent event).1 = w ∧ (w.closeEvent event).2.accepted = true) ∧
      (w.visible = false → (w.closeEvent event).2.accepted = true)) ∧
    (∀ (w : Gui.Window) (event : QCloseEvent),
      (((w.closeEvent event).1 = w.hide ∧ (w.closeEvent event).1.visible = false ∧
          (w.closeEvent event).2.accepted = false) ↔
        (event.spontaneous = true ∧ w.visible = true ∧ w.tray_visible = true)) ∧
      (¬ (event.spontaneous = true ∧ w.visible = true ∧ w.tray_visible = true) →
        (w.closeEvent event).1 = w ∧ (w.closeEvent event).2.accepted = true) ∧
      (w.visible = false → (w.closeEvent event).2.accepted = true)) := by
  constructor
  · intro w event
    rcases event with ⟨s, a⟩
    rcases w with ⟨v, t, title, msg, pm, tm, bs⟩
    cases s <;> cases v <;> cases t <;>
      simp [Window.closeEvent, Window.hide, Window.setVisible, Window.isVisible,
        QCloseEvent.accept, QCloseEvent.ignore]
  · intro w event
    rcases event with ⟨s, a⟩
    rcases w with ⟨v, t, title, u, pm, tm⟩
    cases s <;> cases v <;> cases t <;>
      simp [Gui.Window.closeEvent, Gui.Window.hide, Gui.Window.setVisible,
        Gui.Window.isVisible, QCloseEvent.accept, QCloseEvent.ignore]

/-- C2, as stated, fails: a single click on the tray icon (`Trigger`) leaves a visible
window visible. -/
theorem tray_activated_trigger_keeps_visibility :
    ¬ ((sample_window.tray_activated ActivationReason.Trigger).visible =
        !sample_window.visible) ∧
    sample_window.visible = true ∧
    (sample_window.tray_activated ActivationReason.Trigger).visible = true ∧
    (sample_window.tray_activated ActivationReason.MiddleClick).visible = true := by
  decide

/-- C2, amended. `Window::tray_activated` (in both windows) toggles the visibility of the
window on a double click of the tray icon and changes nothing else; for every other
activation reason (single click, middle click, context menu, unknown) the window is left
exactly as it was. -/
theorem tray_activated_toggles_on_double_click_only :
    (∀ (w : Window) (reason : ActivationReason),
      (reason = ActivationReason.DoubleClick →
        w.tray_activated reason = { w with visible := !w.visible }) ∧
      (reason ≠ ActivationReason.DoubleClick → w.tray_activated reason = w)) ∧
    (∀ (w : Gui.Window) (reason : ActivationReason),
      (reason = ActivationReason.DoubleClick →
        w.tray_activated reason = { w with visible := !w.visible }) ∧
      (reason ≠ ActivationReason.DoubleClick → w.tray_activated reason = w)) := by
  constructor
  · intro w reason
    cases reason <;> simp [Window.tray_activated, Window.setVisible, Window.isVisible]
  · intro w reason
    cases reason <;>
      simp [Gui.Window.tray_activated, Gui.Window.setVisible, Gui.Window.isVisible]

/-! ## Transfers: sending to the selection, registering transfers -/

/-- The uploads `action_send_clicked` of `src/window.h` requests for a selection: one for
each index of column 0 that has an item, in selection order. -/
theorem window_action_send_fold (ops : PeerListOps) (filepath : String)
    (selection : List QModelIndex) (w : Window) :
    selection.foldl
      (fun w index =>
        if index.column == 0 && ops.has_item w.peer_list_model index then
          w.request_upload (ops.get_item_t w.peer_list_model index).get_peer filepath
        else w)
      w =
    { w with
      transfer_list_model :=
        { item_list := w.transfer_list_model.item_list ++
            (selection.filter
              (fun index => index.column == 0 && ops.has_item w.peer_list_model index)).map
              (fun index =>
                TransferItem.Upload (ops.get_item_t w.peer_list_model index).get_peer
                  filepath) } } := by
  induction selection generalizing w with
  | nil => simp
  | cons index rest ih =>
    rw [List.foldl_cons, ih]
    by_cases h : (index.column == 0 && ops.has_item w.peer_list_model index) = true
    · simp [h, List.filter_cons, Window.request_upload, StructItemModel.append]
    · simp [h, List.filter_cons]

/-- The uploads `action_send_clicked` of `src/gui/window.h` requests for a selection. -/
theorem gui_action_send_fold (ops : Gui.PeerListOps) (filepath : String)
    (selection : List QModelIndex) (w : Gui.Window) :
    selection.foldl
      (fun w index =>
        if index.column == 0 && ops.has_item w.peer_list_model index then
          w.request_upload (ops.get_peer (ops.get_item_t w.peer_list_model index)) filepath
        else w)
      w =
    { w with
      transfer_list_model :=
        { item_list := w.transfer_list_model.item_list ++
            (selection.filter
              (fun index => index.column == 0 && ops.has_item w.peer_list_model index)).map
              (fun index =>
                TransferItem.UploadOld (ops.get_peer (ops.get_item_t w.peer_list_model index))
                  filepath w.local_username) } } := by
  induction selection generalizing w with
  | nil => simp
  | cons index rest ih =>
    rw [List.foldl_cons, ih]
    by_cases h : (index.column == 0 && ops.has_item w.peer_list_model index) = true
    · simp [h, List.filter_cons, Gui.Window.request_upload, StructItemModel.append]
    · simp [h, List.filter_cons]

/-- A run of `request_upload` calls of `src/window.h` appends one upload per call. -/
theorem window_request_upload_fold (filepath : String) (peers : List Peer) (w : Window) :
    peers.foldl (fun w peer => w.request_upload peer filepath) w =
    { w with
      transfer_list_model :=
        { item_list := w.transfer_list_model.item_list ++
            peers.map (fun peer => TransferItem.Upload peer filepath) } } := by
  induction peers generalizing w with
  | nil => simp
  | cons peer rest ih =>
    rw [List.foldl_cons, ih]
    simp [Window.request_upload, StructItemModel.append]

/-- A run of `request_upload` calls of `src/gui/window.h` appends one upload per call. -/
theorem gui_request_upload_fold (filepath : String) (peers : List Peer) (w : Gui.Window) :
    peers.foldl (fun w peer => w.request_upload peer filepath) w =
    { w with
      transfer_list_model :=
        { item_list := w.transfer_list_model.item_list ++
            peers.map (fun peer => TransferItem.UploadOld peer filepath w.local_username) } } := by
  induction peers generalizing w with
  | nil => simp
  | cons peer rest ih =>
    rw [List.foldl_cons, ih]
    simp [Gui.Window.request_upload, StructItemModel.append]

/-- C3. `Window::action_send_clicked` (in both windows) requests nothing when the chosen
file path is empty. Otherwise it changes the transfer list only, by the uploads that
`request_upload` appends: one for each selected index of column 0 for which the peer model
has an item, in selection order, each with the chosen file path and the peer of that item,
and none for an index of another column; a row selected across its 4 columns gives 1
upload. -/
theorem action_send_clicked_one_upload_per_selected_row :
    (∀ (ops : PeerListOps) (w : Window) (filepath : String) (selection : List QModelIndex),
      (filepath.isEmpty = true → w.action_send_clicked ops filepath selection = w) ∧
      (filepath.isEmpty = false →
        w.action_send_clicked ops filepath selection =
          ((selection.filter
              (fun index => index.column == 0 && ops.has_item w.peer_list_model index)).map
              (fun index => (ops.get_item_t w.peer_list_model index).get_peer)).foldl
            (fun w peer => w.request_upload peer filepath) w ∧
        w.action_send_clicked ops filepath selection =
          { w with
            transfer_list_model :=
              { item_list := w.transfer_list_model.item_list ++
                  (selection.filter
                    (fun index =>
                      index.column == 0 && ops.has_item w.peer_list_model index)).map
                    (fun index =>
                      TransferItem.Upload (ops.get_item_t w.peer_list_model index).get_peer
                        filepath) } } ∧
        ∀ row : Int, ops.has_item w.peer_list_model ⟨row, 0⟩ = true →
          (w.action_send_clicked ops filepath
              [⟨row, 0⟩, ⟨row, 1⟩, ⟨row, 2⟩, ⟨row, 3⟩]).transfer_list_model.item_list =
            w.transfer_list_model.item_list ++
              [TransferItem.Upload (ops.get_item_t w.peer_list_model ⟨row, 0⟩).get_peer
                filepath])) ∧
    (∀ (ops : Gui.PeerListOps) (w : Gui.Window) (filepath : String)
        (selection : List QModelIndex),
      (filepath.isEmpty = true → w.action_send_clicked ops filepath selection = w) ∧
      (filepath.isEmpty = false →
        w.action_send_clicked ops filepath selection =
          ((selection.filter
              (fun index => index.column == 0 && ops.has_item w.peer_list_model index)).map
              (fun index => ops.get_peer (ops.get_item_t w.peer_list_model index))).foldl
            (fun w peer => w.request_upload peer filepath) w ∧
        w.action_send_clicked ops filepath selection =
          { w with
            transfer_list_model :=
              { item_list := w.transfer_list_model.item_list ++
                  (selection.filter
                    (fun index =>
                      index.column == 0 && ops.has_item w.peer_list_model index)).map
                    (fun index =>
                      TransferItem.UploadOld
                        (ops.get_peer (ops.get_item_t w.peer_list_model index))
                        filepath w.local_username) } } ∧
        ∀ row : Int, ops.has_item w.peer_list_model ⟨row, 0⟩ = true →
          (w.action_send_clicked ops filepath
              [⟨row, 0⟩, ⟨row, 1⟩, ⟨row, 2⟩, ⟨row, 3⟩]).transfer_list_model.item_list =
            w.transfer_list_model.item_list ++
              [TransferItem.UploadOld
                (ops.get_peer (ops.get_item_t w.peer_list_model ⟨row, 0⟩))
                filepath w.local_username])) := by
  constructor
  · intro ops w filepath selection
    refine ⟨fun h => by simp [Window.action_send_clicked, h], fun h => ?_⟩
    have key := window_action_send_fold ops filepath selection w
    refine ⟨?_, ?_, ?_⟩
    · rw [window_request_upload_fold]
      simp only [Window.action_send_clicked, h, Bool.false_eq_true, if_false]
      rw [key]
      simp [List.map_map, Function.comp_def]
    · simp only [Window.action_send_clicked, h, Bool.false_eq_true, if_false]
      exact key
    · intro row hrow
      simp only [Window.action_send_clicked, h, Bool.false_eq_true, if_false]
      rw [window_action_send_fold]
      simp [List.filter_cons, hrow]
  · intro ops w filepath selection
    refine ⟨fun h => by simp [Gui.Window.action_send_clicked, h], fun h => ?_⟩
    have key := gui_action_send_fold ops filepath selection w
    refine ⟨?_, ?_, ?_⟩
    · rw [gui_request_upload_fold]
      simp only [Gui.Window.action_send_clicked, h, Bool.false_eq_true, if_false]
      rw [key]
      simp [List.map_map, Function.comp_def]
    · simp only [Gui.Window.action_send_clicked, h, Bool.false_eq_true, if_false]
      exact key
    · intro row hrow
      simp only [Gui.Window.action_send_clicked, h, Bool.false_eq_true, if_false]
      rw [gui_action_send_fold]
      simp [List.filter_cons, hrow]

/-- C4. Every created transfer is registered in the transfer list: `request_upload`
appends exactly one upload entry and `incoming_connection` exactly one download entry (in
both windows), so the number of entries grows by exactly 1, the entries already present
keep their content and order, and nothing else in the window changes. -/
theorem request_upload_incoming_connection_append_one_entry :
    (∀ (w : Window) (peer : Peer) (filepath : String),
      (w.request_upload peer filepath).transfer_list_model.item_list =
          w.transfer_list_model.item_list ++ [TransferItem.Upload peer filepath] ∧
      (TransferItem.Upload peer filepath).is_upload = true ∧
      (w.request_upload peer filepath).transfer_list_model.item_list.length =
          w.transfer_list_model.item_list.length + 1 ∧
      (w.request_upload peer filepath).transfer_list_model.item_list.take
          w.transfer_list_model.item_list.length = w.transfer_list_model.item_list ∧
      w.request_upload peer filepath =
          { w with transfer_list_model := (w.request_upload peer filepath).transfer_list_model }) ∧
    (∀ (w : Window) (connection : QAbstractSocket),
      (w.incoming_connection connection).transfer_list_model.item_list =
          w.transfer_list_model.item_list ++ [TransferItem.Download connection] ∧
      (TransferItem.Download connection).is_download = true ∧
      (w.incoming_connection connection).transfer_list_model.item_list.length =
          w.transfer_list_model.item_list.length + 1 ∧
      (w.incoming_connection connection).transfer_list_model.item_list.take
          w.transfer_list_model.item_list.length = w.transfer_list_model.item_list ∧
      w.incoming_connection connection =
          { w with
            transfer_list_model := (w.incoming_connection connection).transfer_list_model }) ∧
    (∀ (w : Gui.Window) (peer : Peer) (filepath : String),
      (w.request_upload peer filepath).transfer_list_model.item_list =
          w.transfer_list_model.item_list ++
            [TransferItem.UploadOld peer filepath w.local_username] ∧
      (TransferItem.UploadOld peer filepath w.local_username).is_upload = true ∧
      (w.request_upload peer filepath).transfer_list_model.item_list.length =
          w.transfer_list_model.item_list.length + 1 ∧
      (w.request_upload peer filepath).transfer_list_model.item_list.take
          w.transfer_list_model.item_list.length = w.transfer_list_model.item_list ∧
      w.request_upload peer filepath =
          { w with transfer_list_model := (w.request_upload peer filepath).transfer_list_model }) ∧
    (∀ (w : Gui.Window) (connection : QAbstractSocket),
      (w.incoming_connection connection).transfer_list_model.item_list =
          w.transfer_list_model.item_list ++ [TransferItem.DownloadOld connection] ∧
      (TransferItem.DownloadOld connection).is_download = true ∧
      (w.incoming_connection connection).transfer_list_model.item_list.length =
          w.transfer_list_model.item_list.length + 1 ∧
      (w.incoming_connection connection).transfer_list_model.item_list.take
          w.transfer_list_model.item_list.length = w.transfer_list_model.item_list ∧
      w.incoming_connection connection =
          { w with
            transfer_list_model := (w.incoming_connection connection).transfer_list_model }) := by
  refine ⟨?_, ?_, ?_, ?_⟩
  · intro w peer filepath
    simp [Window.request_upload, StructItemModel.append, TransferItem.is_upload]
  · intro w connection
    simp [Window.incoming_connection, StructItemModel.append, TransferItem.is_download]
  · intro w peer filepath
    simp [Gui.Window.request_upload, StructItemModel.append, TransferItem.is_upload]
  · intro w connection
    simp [Gui.Window.incoming_connection, StructItemModel.append, TransferItem.is_download]

/-! ## The peer list -/

/-- C5, as stated, fails: with the two peers named "alice" in the list, no `delete_peer`
makes the loss of the laptop leave the desktop entry alone and the loss of the desktop
leave the laptop entry alone, because `peer_removed` receives the same user name in both
cases; a `delete_peer` that matches user names removes both entries. -/
theorem peer_removed_same_username_not_told_apart :
    ¬ (∃ ops : PeerListOps,
        (two_alices_window.peer_removed ops alice_laptop.username).peer_list_model.item_list =
            [{ peer := alice_desktop }] ∧
        (two_alices_window.peer_removed ops alice_desktop.username).peer_list_model.item_list =
            [{ peer := alice_laptop }]) ∧
    alice_laptop.identity_key ≠ alice_desktop.identity_key ∧
    (two_alices_window.peer_removed sample_ops alice_laptop.username).peer_list_model.item_list =
      [] := by
  refine ⟨?_, by decide, by decide⟩
  rintro ⟨ops, h1, h2⟩
  have h : alice_laptop.username = alice_desktop.username := rfl
  rw [h, h2] at h1
  exact absurd h1 (by decide)

/-- C5, amended. Peer removal is matched on the user name: `Window::peer_removed` hands the
user name of the lost peer, and nothing else, to `delete_peer` of the peer list model. The
loss of either of two peers with the same user name therefore has the same effect,
whatever their host names, and only the peer list model changes. -/
theorem peer_removed_matches_username (ops : PeerListOps) (w : Window) (lost other : Peer)
    (h : lost.username = other.username) :
    w.peer_removed ops lost.username = w.peer_removed ops other.username ∧
    (w.peer_removed ops lost.username).peer_list_model =
      ops.delete_peer w.peer_list_model other.username ∧
    w.peer_removed ops lost.username =
      { w with peer_list_model := ops.delete_peer w.peer_list_model lost.username } := by
  rw [h]
  exact ⟨rfl, rfl, rfl⟩

/-- C5, amended, at the two peers named "alice". -/
theorem peer_removed_matches_username_witness :
    alice_laptop.username = alice_desktop.username ∧
    alice_laptop.identity_key ≠ alice_desktop.identity_key ∧
    two_alices_window.peer_removed sample_ops alice_laptop.username =
      two_alices_window.peer_removed sample_ops alice_desktop.username :=
  ⟨rfl, by decide,
    (peer_removed_matches_username sample_ops two_alices_window alice_laptop alice_desktop
      rfl).1⟩

/-- A step that is not a registration leaves a window without browsers without browsers,
and leaves its peer list as it is. -/
theorem window_step_without_browser (c : Const) (ops : PeerListOps) (w : Window)
    (e : Window.Event) (hb : w.browsers = []) (he : e.is_registered = false) :
    (Window.step c ops w e).browsers = [] ∧
    (Window.step c ops w e).peer_list_model = w.peer_list_model := by
  cases e with
  | registered username => simp [Window.Event.is_registered] at he
  | close spontaneous =>
    simp only [Window.step, Window.closeEvent]
    split <;> simp [Window.hide, Window.setVisible, hb]
  | tray reason =>
    cases reason <;> simp [Window.step, Window.tray_activated, Window.setVisible, hb]
  | use_tray checked => simp [Window.step, hb]
  | show_window => simp [Window.step, Window.«show», Window.setVisible, hb]
  | send filepath selection =>
    simp only [Window.step, Window.action_send_clicked]
    split
    · exact ⟨hb, rfl⟩
    · rw [window_action_send_fold]
      exact ⟨hb, rfl⟩
  | browser_added browser peer => simp [Window.step, hb]
  | browser_removed browser username => simp [Window.step, hb]
  | item_request_upload peer filepath => simp [Window.step, Window.request_upload, hb]
  | new_connection connection => simp [Window.step, Window.incoming_connection, hb]

/-- A run without a registration leaves a window without browsers without browsers, and
leaves its peer list as it is. -/
theorem window_run_without_browser (c : Const) (ops : PeerListOps) (events : List Window.Event)
    (w : Window) (hb : w.browsers = [])
    (he : ∀ e ∈ events, Window.Event.is_registered e = false) :
    (Window.run c ops w events).browsers = [] ∧
    (Window.run c ops w events).peer_list_model = w.peer_list_model := by
  induction events generalizing w with
  | nil => exact ⟨hb, rfl⟩
  | cons e rest ih =>
    have h1 := window_step_without_browser c ops w e hb (he e (List.mem_cons_self e rest))
    have h2 := ih (Window.step c ops w e) h1.1
      (fun e' he' => he e' (List.mem_cons_of_mem e he'))
    simp only [Window.run, List.foldl_cons] at h2 ⊢
    exact ⟨h2.1, h2.2.trans h1.2⟩

/-- C9, as stated, fails: in a freshly constructed window, where the service has not been
registered, no browser is active, and none is after events that are not a registration; a
peer announced then is not added. -/
theorem browsing_inactive_before_registration :
    ¬ (Window.browsing_active (Window.run sample_const sample_ops sample_window []) = true) ∧
    Window.browsing_active
      (Window.run sample_const sample_ops sample_window
        [Window.Event.tray ActivationReason.DoubleClick,
          Window.Event.browser_added 0 alice_laptop]) = false ∧
    (Window.run sample_const sample_ops sample_window
        [Window.Event.tray ActivationReason.DoubleClick,
          Window.Event.browser_added 0 alice_laptop]).peer_list_model =
      sample_window.peer_list_model := by
  decide

/-- C9, amended. In the `Window` of `src/window.h` browsing starts with the registration:
`service_registered` creates the `Discovery::Browser`, for the registered user name. After
every sequence of events since construction in which the local service has not been
registered, no browser exists and the peer list is the one the constructor built, so no
announced peer has been added. -/
theorem browsing_starts_with_registration (c : Const) (ops : PeerListOps)
    (setting_show_tray : Bool) (events : List Window.Event)
    (h : ∀ e ∈ events, Window.Event.is_registered e = false) :
    (Window.run c ops (Window.new c setting_show_tray) events).browsers = [] ∧
    Window.browsing_active (Window.run c ops (Window.new c setting_show_tray) events) = false ∧
    (Window.run c ops (Window.new c setting_show_tray) events).peer_list_model =
      (Window.new c setting_show_tray).peer_list_model ∧
    ∀ username : String,
      (Window.step c ops (Window.run c ops (Window.new c setting_show_tray) events)
          (Window.Event.registered username)).browsers =
        [{ username := username, service_name := c.service_name }] := by
  have hnew : (Window.new c setting_show_tray).browsers = [] := rfl
  have hrun := window_run_without_browser c ops events (Window.new c setting_show_tray) hnew h
  refine ⟨hrun.1, ?_, hrun.2, fun username => ?_⟩
  · simp [Window.browsing_active, hrun.1]
  · simp [Window.step, Window.service_registered, hrun.1]

/-- C9, amended, at a run of three events without a registration. -/
theorem browsing_starts_with_registration_witness :
    (∀ e ∈ [Window.Event.close true, Window.Event.tray ActivationReason.DoubleClick,
        Window.Event.browser_added 0 alice_laptop], Window.Event.is_registered e = false) ∧
    (Window.run sample_const sample_ops (Window.new sample_const true)
      [Window.Event.close true, Window.Event.tray ActivationReason.DoubleClick,
        Window.Event.browser_added 0 alice_laptop]).browsers = [] :=
  ⟨by decide,
    (browsing_starts_with_registration sample_const sample_ops true
      [Window.Event.close true, Window.Event.tray ActivationReason.DoubleClick,
        Window.Event.browser_added 0 alice_laptop] (by decide)).1⟩

/-! ## `src/transfer_list.h`: progress bar, headers, sizes -/

namespace Transfer

/-- C10. `Transfer::Model::headerData` returns a non-empty value if and only if the role
is `DisplayRole`, the orientation is `Horizontal` and the section is one of the five fields
0..4; the value is then "File", "Peer", "File size", "Transferred" and "Status" for the
sections 0, 1, 2, 3 and 4. The five labels are pairwise distinct, and every section outside
0..4 (`NbFields` = 5 and the negative sections included) gets the empty value. -/
theorem headerData_five_field_labels (section_ : Int) (orientation : Orientation)
    (role : Int) :
    ((∃ label, headerData section_ orientation role = some label ∧ label ≠ "") ↔
      (role = DisplayRole ∧ orientation = Orientation.Horizontal ∧
        0 ≤ section_ ∧ section_ ≤ 4)) ∧
    (headerData section_ orientation role = none ↔
      ¬ (role = DisplayRole ∧ orientation = Orientation.Horizontal ∧
        0 ≤ section_ ∧ section_ ≤ 4)) ∧
    headerData Item.FilenameField Orientation.Horizontal DisplayRole = some "File" ∧
    headerData Item.PeerField Orientation.Horizontal DisplayRole = some "Peer" ∧
    headerData Item.SizeField Orientation.Horizontal DisplayRole = some "File size" ∧
    headerData Item.ProgressField Orientation.Horizontal DisplayRole = some "Transferred" ∧
    headerData Item.StatusField Orientation.Horizontal DisplayRole = some "Status" ∧
    [Item.FilenameField, Item.PeerField, Item.SizeField, Item.ProgressField,
      Item.StatusField, Item.NbFields] = [0, 1, 2, 3, 4, 5] ∧
    ["File", "Peer", "File size", "Transferred", "Status"].Nodup ∧
    headerData Item.NbFields orientation role = none ∧
    ((section_ < 0 ∨ 4 < section_) → headerData section_ orientation role = none) := by
  have hout : (section_ < 0 ∨ 4 < section_) → headerData section_ orientation role = none := by
    intro hs
    have h0 : section_ ≠ 0 := by omega
    have h1 : section_ ≠ 1 := by omega
    have h2 : section_ ≠ 2 := by omega
    have h3 : section_ ≠ 3 := by omega
    have h4 : section_ ≠ 4 := by omega
    simp [headerData, Item.FilenameField, Item.PeerField, Item.SizeField,
      Item.ProgressField, Item.StatusField, h0, h1, h2, h3, h4]
  have hcases : (section_ < 0 ∨ 4 < section_) ∨ section_ = 0 ∨ section_ = 1 ∨ section_ = 2 ∨
      section_ = 3 ∨ section_ = 4 := by omega
  refine ⟨?_, ?_, by decide, by decide, by decide, by decide, by decide, by decide,
    by decide, ?_, hout⟩
  · rcases hcases with h | h | h | h | h | h
    · rw [hout h]
      simp only [reduceCtorEq, false_and, exists_false, false_iff, not_and, not_le]
      intro _ _ h0
      omega
    all_goals
      subst h
      by_cases hr : role = DisplayRole <;> cases orientation <;>
        simp [headerData, hr, tr, Item.FilenameField, Item.PeerField, Item.SizeField,
          Item.ProgressField, Item.StatusField]
  · rcases hcases with h | h | h | h | h | h
    · rw [hout h]
      simp only [true_iff, not_and, not_le]
      intro _ _ h0
      omega
    all_goals
      subst h
      by_cases hr : role = DisplayRole <;> cases orientation <;>
        simp [headerData, hr, tr, Item.FilenameField, Item.PeerField, Item.SizeField,
          Item.ProgressField, Item.StatusField]
  · by_cases hr : role = DisplayRole <;> cases orientation <;>
      simp [headerData, hr, Item.NbFields, Item.FilenameField, Item.PeerField,
        Item.SizeField, Item.ProgressField, Item.StatusField]

end Transfer

end Localshare
